import Mathlib

/-!
Verification of `artnet_to_csv.py`, a pipeline that converts auction-catalog
PDF documents into a CSV of artwork records.

Shallow embedding conventions:
* Python `str` is modelled as `List Char` (`PyStr`); `str.strip`, `str.split`,
  `str.startswith`, slicing and concatenation are modelled by the
  corresponding list operations.
* Page-space coordinates (floats in the source) are modelled as rationals;
  none of the verified properties depend on floating-point rounding.
* The PyMuPDF document interface (an external collaborator per the spec) is
  modelled abstractly: a page carries its geometry, its drawing primitives,
  and two text oracles — `textClip y0 y1` for
  `page.get_text("text", clip=fitz.Rect(0, y0, page.rect.width, y1))`
  and `textFull` for `page.get_text("text")`.
* Fallible code paths (a Python exception escaping a function) are modelled
  with `Option` / `Except`.
-/

namespace ArtnetToCsv

/-- Python strings, modelled as lists of characters. -/
abbrev PyStr := List Char

/-- The characters stripped by Python `str.strip()` (ASCII whitespace,
which is all that occurs in this pipeline's data). -/
def isPySpace (c : Char) : Bool :=
  c == ' ' || c == '\t' || c == '\n' || c == '\r' || c == '\x0b' || c == '\x0c'

/-- Python `s.strip()`: remove leading and trailing whitespace. -/
def pyStrip (s : PyStr) : PyStr :=
  ((s.dropWhile isPySpace).reverse.dropWhile isPySpace).reverse

/-- Python `s.split(sep)` for a one-character separator: split at every
occurrence, keeping empty pieces (`"".split(c) == [""]`). -/
def splitOnChar (sep : Char) : PyStr → List PyStr
  | [] => [[]]
  | c :: rest =>
    if c == sep then [] :: splitOnChar sep rest
    else
      match splitOnChar sep rest with
      | h :: tl => (c :: h) :: tl
      | [] => [[c]]

/-- Newline-separated concatenation of a list of strings
(used to state the spec's description of cross-page stitching). -/
def joinNL : List PyStr → PyStr
  | [] => []
  | [p] => p
  | p :: q :: rest => p ++ '\n' :: joinNL (q :: rest)

/-! ## Geometry and the document interface -/

/-- A PyMuPDF rectangle: the geometry payload of a drawing item. -/
structure Rect where
  x0 : ℚ
  y0 : ℚ
  x1 : ℚ
  y1 : ℚ
deriving DecidableEq

/-- PyMuPDF `Rect.width` is `abs(x1 - x0)`. -/
def Rect.width (r : Rect) : ℚ := |r.x1 - r.x0|

/-- One element of a drawing's `items` list: a type tag (such as `"re"` for
rectangle) and its geometry. -/
structure Item where
  tag : PyStr
  rect : Rect
deriving DecidableEq

/-- One drawing primitive as returned by `page.get_drawings()`. -/
structure Drawing where
  items : List Item
deriving DecidableEq

/-- A page of the document, abstracting the PyMuPDF page interface used by
the source: its dimensions, its drawing primitives, and its text oracles. -/
structure Page where
  width : ℚ
  height : ℚ
  drawings : List Drawing
  /-- `page.get_text("text", clip=fitz.Rect(0, y0, page.rect.width, y1))`.
  The source always clips to the full page width, so only the two vertical
  bounds vary. -/
  textClip : ℚ → ℚ → PyStr
  /-- `page.get_text("text")` with no clip. -/
  textFull : PyStr

instance : Inhabited Page := ⟨⟨0, 0, [], fun _ _ => [], []⟩⟩

/-- A document is its list of pages. -/
abbrev Doc := List Page

/-- `doc[page_num]`.  The source only indexes pages that are in range
(`range(len(doc))`, or pages between two located separators); out-of-range
access, which would raise in Python, returns the default page here and is
never relied on by a theorem outside the in-range case. -/
def pageAt (doc : Doc) (n : Nat) : Page := doc.getD n default

/-- A separator marker: `{'page': page_num, 'y': rect.y0}`. -/
structure Separator where
  page : Nat
  y : ℚ
deriving DecidableEq

/-! ## Separator Locator (`find_artnet_separators`) -/

/-- The body of the inner loop of `find_artnet_separators`: a drawing
yields a separator candidate iff its first item is a rectangle
(`drawing['items'][0][0] == 're'`) with `abs(rect.y1 - rect.y0) < 1` and
`rect.width > 100`; the recorded marker is `{'page': pn, 'y': rect.y0}`.
(The source would raise `IndexError` on a drawing with an empty `items`
list; PyMuPDF drawings always carry at least one item, and such a drawing
is skipped here.) -/
def sepOfDrawing (pn : Nat) (d : Drawing) : Option Separator :=
  match d.items with
  | [] => none
  | it :: _ =>
    if it.tag = ("re".toList) then
      if |it.rect.y1 - it.rect.y0| < 1 ∧ it.rect.width > 100 then
        some ⟨pn, it.rect.y0⟩
      else none
    else none

/-- `find_artnet_separators(doc)`: scan every page's drawings for thin wide
rectangles, then drop the candidates with `y <= 50` (page borders). -/
def find_artnet_separators (doc : Doc) : List Separator :=
  let separators :=
    (List.range doc.length).flatMap
      (fun pn => (pageAt doc pn).drawings.filterMap (sepOfDrawing pn))
  separators.filter (fun s => decide ((50 : ℚ) < s.y))

/-! ## Region Text Extractor (first half of `get_artwork_info`) -/

/-- The text-assembly half of `get_artwork_info` (lines 55–78 of the
source): same-page spans are one clipped extraction; cross-page spans
stitch the clipped bottom of the first page, the full text of every middle
page, and the clipped top of the last page, each stripped, joined with
`"\n"`.  The redundant `if start_sep['page'] != end_sep['page']` of the
source's else-branch is kept. -/
def extractRegionText (doc : Doc) (start_sep end_sep : Separator) : PyStr :=
  if start_sep.page = end_sep.page then
    pyStrip ((pageAt doc start_sep.page).textClip start_sep.y end_sep.y)
  else
    let first_page := pageAt doc start_sep.page
    let t0 := pyStrip (first_page.textClip start_sep.y first_page.height)
    let tm :=
      (List.range' (start_sep.page + 1) (end_sep.page - (start_sep.page + 1))).foldl
        (fun acc pn => acc ++ '\n' :: pyStrip ((pageAt doc pn).textFull)) t0
    if start_sep.page ≠ end_sep.page then
      tm ++ '\n' :: pyStrip ((pageAt doc end_sep.page).textClip 0 end_sep.y)
    else tm

/-- The spec's description of the cross-page case, written as the
newline-joined list of trimmed pieces: clipped bottom of the start page,
full text of every strictly-intermediate page in increasing order, clipped
top of the end page.  Stated from the spec's words, to be compared with
`extractRegionText`. -/
def specRegionText (doc : Doc) (s e : Separator) : PyStr :=
  joinNL
    ((pyStrip ((pageAt doc s.page).textClip s.y (pageAt doc s.page).height)) ::
      (((List.range' (s.page + 1) (e.page - (s.page + 1))).map
          (fun pn => pyStrip ((pageAt doc pn).textFull))) ++
        [pyStrip ((pageAt doc e.page).textClip 0 e.y)]))

/-! ## Field Parser (second half of `get_artwork_info`) -/

/-- The fixed field vocabulary `ARTNET_CATEGORIES`, in source order. -/
def ARTNET_CATEGORIES : List PyStr :=
  [("Title".toList), ("Description".toList), ("Medium".toList),
   ("Year of Work".toList), ("Size".toList), ("Sale of".toList),
   ("Estimate".toList), ("Sold For".toList), ("Misc.".toList)]

/-- An artwork record: a Python dict from field name to string value,
modelled as an association list in insertion order (Python dicts preserve
insertion order, and updating an existing key keeps its position). -/
abbrev Artwork := List (PyStr × PyStr)

/-- `d[k] = v` on a Python dict: replace in place if `k` is present,
otherwise append at the end. -/
def dictInsert (d : Artwork) (k v : PyStr) : Artwork :=
  match d with
  | [] => [(k, v)]
  | (k', v') :: rest =>
    if k' == k then (k, v) :: rest else (k', v') :: dictInsert rest k v

/-- `k in d` on a Python dict. -/
def dictContains (d : Artwork) (k : PyStr) : Bool :=
  d.any (fun p => p.1 == k)

/-- `d.get(k)` on a Python dict. -/
def dictGet? (d : Artwork) (k : PyStr) : Option PyStr :=
  (d.find? (fun p => p.1 == k)).map (fun p => p.2)

/-- `d[k] += addition` on a Python dict (the key is known to be present;
an absent key leaves the dict unchanged, a case the parser guards with
`current_field in artwork`). -/
def dictAppend (d : Artwork) (k addition : PyStr) : Artwork :=
  match d with
  | [] => []
  | (k', v) :: rest =>
    if k' == k then (k', v ++ addition) :: rest
    else (k', v) :: dictAppend rest k addition

/-- The label scan of lines 96–103: test the stripped line against the nine
field labels in `ARTNET_CATEGORIES` order and return the first whose text
prefixes the line (`for field in ARTNET_CATEGORIES: if line.startswith(field):
... break`). -/
def classifyLine (line : PyStr) : Option PyStr :=
  ARTNET_CATEGORIES.find? (fun field => field.isPrefixOf line)

/-- Lines 99–101: the value stored with a matched label — the line after
the label, stripped, with one leading colon (and surrounding whitespace)
removed if present. -/
def labelValue (line field : PyStr) : PyStr :=
  let value := pyStrip (line.drop field.length)
  match value with
  | ':' :: restv => pyStrip restv
  | _ => value

/-- The running state of the field-parsing loop: the record built so far
and the `current_field` continuation target. -/
structure FieldState where
  artwork : Artwork
  current_field : Option PyStr
deriving DecidableEq

/-- One iteration of the loop of lines 86–106: strip the line; if it starts
with `"Title"` and has a predecessor that starts with no known label,
record that predecessor as the Artist; then classify the line against the
label list — on a match store its value and set `current_field`, otherwise
fold the stripped line into `current_field`'s value (when that field is
already present in the record). -/
def parseStep (lines : List PyStr) (st : FieldState) (idx : Nat)
    (rawLine : PyStr) : FieldState :=
  let line := pyStrip rawLine
  let aw :=
    if ("Title".toList).isPrefixOf line ∧ 0 < idx then
      let artist_line := pyStrip (lines.getD (idx - 1) [])
      if ARTNET_CATEGORIES.any (fun field => field.isPrefixOf artist_line) then
        st.artwork
      else dictInsert st.artwork ("Artist".toList) artist_line
    else st.artwork
  match classifyLine line with
  | some field => ⟨dictInsert aw field (labelValue line field), some field⟩
  | none =>
    match st.current_field with
    | some cf =>
      if dictContains aw cf then ⟨dictAppend aw cf (' ' :: line), some cf⟩
      else ⟨aw, some cf⟩
    | none => ⟨aw, none⟩

/-- Lines 81–106 of `get_artwork_info`: split the text into lines and run
the field-parsing loop, returning the accumulated record. -/
def parseArtworkFields (text : PyStr) : Artwork :=
  let lines := splitOnChar '\n' text
  (lines.enum.foldl (fun st p => parseStep lines st p.1 p.2)
    ⟨[], none⟩).artwork

/-- `get_artwork_info(doc, start_sep, end_sep)`: extract the span's text
and parse it.  When the extracted text is empty the source's `if text:`
guard skips the parsing block and `return artwork` raises
`UnboundLocalError` (the local `artwork` was never assigned); that escaping
exception is modelled as `none`. -/
def get_artwork_info (doc : Doc) (start_sep end_sep : Separator) :
    Option Artwork :=
  let text := extractRegionText doc start_sep end_sep
  if text = [] then none
  else some (parseArtworkFields text)

/-! ## Sale-Field Decomposer (`parse_sale_of_column`)

The structural pattern is
`r"^(.*?):\s*(.*?)\s*\[(Lot\s*[0-9A-Za-z\s]+)\](.*?)$"` under `re.match`.
The matcher below implements exactly the backtracking search Python's `re`
performs on this pattern: the lazy groups grow one character at a time
(never across a newline, since `.` excludes `'\n'`), each candidate split
being tested before the group is extended, and the greedy `\s*` runs are
taken maximally (maximal is the only length that can be followed by the
required non-whitespace character — `[` or the start of group 2 — so no
backtracking into them is observable). -/

/-- The four capture groups of the sale pattern. -/
structure SaleGroups where
  house : PyStr
  dateStr : PyStr
  lot : PyStr
  desc : PyStr
deriving DecidableEq

/-- The character class `[0-9A-Za-z\s]` of the lot identifier. -/
def isLotChar (c : Char) : Bool :=
  c.isDigit || (('A' ≤ c && c ≤ 'Z') || ('a' ≤ c && c ≤ 'z')) || isPySpace c

/-- The `$` anchor (no `re.MULTILINE`): end of input, or just before a
newline that is the last character. -/
def atEndAnchor (s : PyStr) : Bool := s == [] || s == ['\n']

/-- `(.*?)$`: the lazy trailing-description group — the shortest
newline-free prefix whose remainder satisfies the `$` anchor. -/
def matchG4 : PyStr → Option PyStr
  | [] => some []
  | c :: rest =>
    if atEndAnchor (c :: rest) then some []
    else if c == '\n' then none
    else (matchG4 rest).map (fun g => c :: g)

/-- `\[(Lot\s*[0-9A-Za-z\s]+)\](.*?)$` at the current position: a literal
`[`, the literal `Lot`, then at least one lot-class character up to the
closing `]` (the class excludes `]`, so the greedy run is forced), then the
trailing group.  Returns group 3 (bracket contents) and group 4. -/
def matchBracket (s : PyStr) : Option (PyStr × PyStr) :=
  match s with
  | '[' :: 'L' :: 'o' :: 't' :: rest =>
    let run := rest.takeWhile isLotChar
    let rest2 := rest.dropWhile isLotChar
    if run == [] then none
    else
      match rest2 with
      | ']' :: rest3 =>
        (matchG4 rest3).map (fun g4 => ('L' :: 'o' :: 't' :: run, g4))
      | _ => none
  | _ => none

/-- `(.*?)\s*\[...`: the lazy date group.  At each position first try to
close the group (skipping the greedy whitespace run and requiring the
bracket part), otherwise extend it by one non-newline character. -/
def matchG2 : PyStr → Option (PyStr × PyStr × PyStr)
  | [] => none
  | c :: rest =>
    match matchBracket ((c :: rest).dropWhile isPySpace) with
    | some (g3, g4) => some ([], g3, g4)
    | none =>
      if c == '\n' then none
      else (matchG2 rest).map (fun r => (c :: r.1, r.2))

/-- `^(.*?):\s*...`: the lazy auction-house group.  At each `':'` try the
rest of the pattern; on failure the group extends past that colon. -/
def matchG1 : PyStr → Option SaleGroups
  | [] => none
  | c :: rest =>
    if c == ':' then
      match matchG2 (rest.dropWhile isPySpace) with
      | some (g2, g3, g4) => some ⟨[], g2, g3, g4⟩
      | none => (matchG1 rest).map (fun r => { r with house := c :: r.house })
    else if c == '\n' then none
    else (matchG1 rest).map (fun r => { r with house := c :: r.house })

/-- `re.match(pattern, entry)` for the sale pattern: `none` when the
structural pattern fails, otherwise the four capture groups. -/
def matchSale (s : PyStr) : Option SaleGroups := matchG1 s

/-! ### `datetime.strptime(date_str, "%A, %B %d, %Y")` -/

/-- Case-insensitive literal prefix match (CPython's `_strptime` compiles
its regex with `IGNORECASE`): returns the remainder on success. -/
def stripPrefixCI : PyStr → PyStr → Option PyStr
  | [], s => some s
  | _, [] => none
  | c :: cs, d :: ds =>
    if c.toLower == d.toLower then stripPrefixCI cs ds else none

/-- First name of the list that case-insensitively prefixes the input,
with its associated value and the remainder.  (CPython orders the
alternation longest-first; no English weekday or month name prefixes
another, so list order is equivalent.) -/
def matchFirstCI (names : List (PyStr × Nat)) (s : PyStr) :
    Option (Nat × PyStr) :=
  match names with
  | [] => none
  | (n, v) :: rest =>
    match stripPrefixCI n s with
    | some r => some (v, r)
    | none => matchFirstCI rest s

/-- The `%A` alternatives (values unused: `strptime` never checks the
weekday against the parsed date). -/
def weekdayNames : List (PyStr × Nat) :=
  [(("Monday".toList), 0), (("Tuesday".toList), 1), (("Wednesday".toList), 2),
   (("Thursday".toList), 3), (("Friday".toList), 4), (("Saturday".toList), 5),
   (("Sunday".toList), 6)]

/-- The `%B` alternatives with their month numbers. -/
def monthNames : List (PyStr × Nat) :=
  [(("January".toList), 1), (("February".toList), 2), (("March".toList), 3),
   (("April".toList), 4), (("May".toList), 5), (("June".toList), 6),
   (("July".toList), 7), (("August".toList), 8), (("September".toList), 9),
   (("October".toList), 10), (("November".toList), 11),
   (("December".toList), 12)]

/-- A literal character of the format string. -/
def expectChar (c : Char) : PyStr → Option PyStr
  | d :: rest => if d == c then some rest else none
  | [] => none

/-- Whitespace in a `strptime` format matches `\s+` (at least one
whitespace character; the run is maximal, which is forced since every
format position after it expects a non-whitespace character). -/
def skipWs1 (s : PyStr) : Option PyStr :=
  match s with
  | c :: rest =>
    if isPySpace c then some (rest.dropWhile isPySpace) else none
  | [] => none

/-- `%d` per CPython's `_strptime` regex `3[01]|[12]\d|0[1-9]|[1-9]`:
a two-digit day 01–31 (with the listed forms) or a single digit 1–9. -/
def parseDay : PyStr → Option (Nat × PyStr)
  | c1 :: c2 :: rest =>
    if c1 == '3' && (c2 == '0' || c2 == '1') then
      some (30 + (c2.toNat - '0'.toNat), rest)
    else if (c1 == '1' || c1 == '2') && c2.isDigit then
      some ((c1.toNat - '0'.toNat) * 10 + (c2.toNat - '0'.toNat), rest)
    else if c1 == '0' && (c2.isDigit && c2 != '0') then
      some (c2.toNat - '0'.toNat, rest)
    else if c1.isDigit && c1 != '0' then
      some (c1.toNat - '0'.toNat, c2 :: rest)
    else none
  | [c1] =>
    if c1.isDigit && c1 != '0' then some (c1.toNat - '0'.toNat, []) else none
  | [] => none

/-- `%Y` per `_strptime`: exactly four digits. -/
def parseYear : PyStr → Option (Nat × PyStr)
  | a :: b :: c :: d :: rest =>
    if a.isDigit && b.isDigit && c.isDigit && d.isDigit then
      some ((((a.toNat - '0'.toNat) * 10 + (b.toNat - '0'.toNat)) * 10 +
              (c.toNat - '0'.toNat)) * 10 + (d.toNat - '0'.toNat), rest)
    else none
  | _ => none

/-- A calendar date as produced by `datetime.strptime` (the time part is
always midnight and is dropped). -/
structure PyDate where
  year : Nat
  month : Nat
  day : Nat
deriving DecidableEq

/-- Gregorian leap year, as in Python's `calendar`/`datetime`. -/
def isLeap (y : Nat) : Bool := (y % 4 == 0 && y % 100 != 0) || y % 400 == 0

/-- Days in a month, as validated by the `datetime` constructor. -/
def daysInMonth (y m : Nat) : Nat :=
  if m = 2 then (if isLeap y then 29 else 28)
  else if m = 4 ∨ m = 6 ∨ m = 9 ∨ m = 11 then 30
  else 31

/-- `datetime.strptime(s, "%A, %B %d, %Y")`, returning `none` where Python
raises `ValueError`: the format's regex must consume the whole input
(weekday name, `","`, whitespace, month name, whitespace, day, `","`,
whitespace, four-digit year) and the resulting date must be constructible
(`MINYEAR <= year` and the day must exist in the month). -/
def strptimeAMBdY (s : PyStr) : Option PyDate := do
  let (_, r1) ← matchFirstCI weekdayNames s
  let r2 ← expectChar ',' r1
  let r3 ← skipWs1 r2
  let (m, r4) ← matchFirstCI monthNames r3
  let r5 ← skipWs1 r4
  let (d, r6) ← parseDay r5
  let r7 ← expectChar ',' r6
  let r8 ← skipWs1 r7
  let (y, r9) ← parseYear r8
  if r9 = [] ∧ 1 ≤ y ∧ d ≤ daysInMonth y m then some ⟨y, m, d⟩ else none

/-! ### The decomposer itself -/

/-- The decomposition result: the four derived attributes of one record. -/
structure SaleFields where
  auction_house : Option PyStr
  sale_date : Option PyDate
  lot_number : Option PyStr
  is_online : Bool
deriving DecidableEq

/-- The atomic fallback
`{'auction_house': None, 'sale_date': None, 'lot_number': None,
'is_online': False}` returned on any parse failure. -/
def saleFallback : SaleFields := ⟨none, none, none, false⟩

/-- Scanner for `re.sub(r"Lot\s*", "", s)`.  The flag records that a `Lot`
token was just removed and the following whitespace run is still being
consumed; on the first non-whitespace character the scan resumes normally
(and may match a further `Lot`). -/
def lotSubGo : Bool → PyStr → PyStr
  | _, [] => []
  | _, 'L' :: 'o' :: 't' :: rest => lotSubGo true rest
  | skipWs, c :: rest =>
    if skipWs && isPySpace c then lotSubGo true rest
    else c :: lotSubGo false rest

/-- `re.sub(r"Lot\s*", "", s)`: remove every non-overlapping leftmost
occurrence of the literal `Lot` together with the following whitespace
run. -/
def lotSub (s : PyStr) : PyStr := lotSubGo false s

/-- `re.search(pat, s)` for a literal pattern: does `pat` occur as a
contiguous substring of `s`? -/
def containsSub (pat : PyStr) : PyStr → Bool
  | [] => pat == []
  | c :: rest => pat.isPrefixOf (c :: rest) || containsSub pat rest

/-- `parse_sale_of_column(entry)`: match the structural pattern (failure →
fallback), parse the stripped date group with the fixed format (a raised
`ValueError` is caught by the bare `except` → fallback), then assemble the
stripped auction house, the date, the lot number with the `Lot` token
removed and stripped, and the case-insensitive `online` test on the
trailing description. -/
def parse_sale_of_column (entry : PyStr) : SaleFields :=
  match matchSale entry with
  | none => saleFallback
  | some g =>
    match strptimeAMBdY (pyStrip g.dateStr) with
    | none => saleFallback
    | some date =>
      { auction_house := some (pyStrip g.house)
        sale_date := some date
        lot_number := some (pyStrip (lotSub g.lot))
        is_online := containsSub ("online".toList) (g.desc.map Char.toLower) }

/-! ## Pipeline Driver (`main`)

`main` lists the input directory, opens each document, and runs the
per-document loop; filesystem discovery and `fitz.open` are external
collaborators, so the driver is modelled as a function of the list of
successfully opened documents.  An exception escaping the loop (the
`UnboundLocalError` of `get_artwork_info`, or the `KeyError` of
`df['Sale of']`) aborts the run before any CSV is written and is modelled
as `Except.error ()`. -/

/-- The temporally-adjacent pairs `(separators[i], separators[i+1])`
for `i in range(len(separators) - 1)`. -/
def adjPairs : List Separator → List (Separator × Separator)
  | a :: b :: rest => (a, b) :: adjPairs (b :: rest)
  | _ => []

/-- The inner loop of `main` for one document: run `get_artwork_info` on
every adjacent separator pair, in order, accumulating the records; a raised
exception aborts the loop. -/
def processPairs (doc : Doc) : List Separator → Except Unit (List Artwork)
  | s :: e :: rest =>
    match get_artwork_info doc s e with
    | none => .error ()
    | some a => (processPairs doc (e :: rest)).map (fun l => a :: l)
  | _ => .ok []

/-- One document's contribution to `results`. -/
def processDoc (doc : Doc) : Except Unit (List Artwork) :=
  processPairs doc (find_artnet_separators doc)

/-- The accumulation over all documents, in processing order. -/
def pipelineRecords : List Doc → Except Unit (List Artwork)
  | [] => .ok []
  | d :: rest =>
    match processDoc d with
    | .error e => .error e
    | .ok as =>
      match pipelineRecords rest with
      | .error e => .error e
      | .ok bs => .ok (as ++ bs)

/-- Extend a column list with one record's keys:
`pd.DataFrame(list_of_dicts)` unions the keys in first-appearance order. -/
def addCols (cols : List PyStr) (keys : List PyStr) : List PyStr :=
  keys.foldl (fun cs k => if k ∈ cs then cs else cs ++ [k]) cols

/-- The columns of `pd.DataFrame(results)`: the union of the records' keys,
in order of first appearance (per-record key order is dict insertion
order). -/
def dfColumns (results : List Artwork) : List PyStr :=
  results.foldl (fun cols a => addCols cols (a.map Prod.fst)) []

/-- The four derived columns appended by `main`, in assignment order. -/
def derivedCols : List PyStr :=
  [("auction_house".toList), ("sale_date".toList), ("lot_number".toList),
   ("is_online".toList)]

/-- A record's cell in the `Sale of` column as seen by
`parse_sale_of_column`: the stored string, or `str(NaN) == "nan"` for a
record without that key. -/
def saleCell (a : Artwork) : PyStr :=
  match dictGet? a ("Sale of".toList) with
  | some v => v
  | none => ("nan".toList)

/-- The table written by `df.to_csv('artnet_results.csv', index=False)`:
its column list, each data row (the record together with its sale
decomposition), and whether a row-index column is emitted. -/
structure EmittedTable where
  columns : List PyStr
  rows : List (Artwork × SaleFields)
  withIndexCol : Bool
deriving DecidableEq

/-- `main`, as a function of the opened documents: accumulate the records,
take the `Sale of` column (`df['Sale of']` raises `KeyError` when no
record ever had that key — in particular when there are no records at
all), decompose it per row, append the four derived columns, and emit the
table without an index column. -/
def mainTable (docs : List Doc) : Except Unit EmittedTable :=
  match pipelineRecords docs with
  | .error e => .error e
  | .ok rs =>
    if ("Sale of".toList) ∈ dfColumns rs then
      .ok { columns := dfColumns rs ++ derivedCols
            rows := rs.map (fun a => (a, parse_sale_of_column (saleCell a)))
            withIndexCol := false }
    else .error ()

/-! ## Concrete test documents -/

/-- A three-page document exercising the spec's cross-page test (page 0 at
`y=300` to page 2 at `y=100`). -/
def crossDoc : Doc :=
  [{ width := 500, height := 800, drawings := []
     textClip := fun y0 y1 =>
       if y0 = 300 ∧ y1 = 800 then (("bottom of page zero").toList)
       else (("unexpected clip").toList)
     textFull := ("full zero".toList) },
   { width := 500, height := 800, drawings := []
     textClip := fun _ _ => ("clip one".toList)
     textFull := ("middle page one".toList) },
   { width := 500, height := 800, drawings := []
     textClip := fun y0 y1 =>
       if y0 = 0 ∧ y1 = 100 then (("top of page two").toList)
       else (("unexpected clip").toList)
     textFull := ("full two".toList) }]

/-- Two drawing primitives that qualify as separators: zero-height
rectangles of width 200 at `y0 = 100` and `y0 = 300`. -/
def stdDrawings : List Drawing :=
  [⟨[⟨("re".toList), ⟨0, 100, 200, 100⟩⟩]⟩,
   ⟨[⟨("re".toList), ⟨0, 300, 200, 300⟩⟩]⟩]

/-- A one-page document with the two standard separators whose every clip
extraction yields empty text. -/
def emptySpanDoc : Doc :=
  [{ width := 500, height := 800, drawings := stdDrawings
     textClip := fun _ _ => []
     textFull := [] }]

/-- A one-page document with the two standard separators whose span parses
to a nonempty record. -/
def twoSepDoc : Doc :=
  [{ width := 500, height := 800, drawings := stdDrawings
     textClip := fun _ _ => ("Title: X".toList)
     textFull := [] }]

/-- A one-page document with the two standard separators whose span parses
to a record carrying an Artist, a Title and a `Sale of` field. -/
def saleDoc : Doc :=
  [{ width := 500, height := 800, drawings := stdDrawings
     textClip := fun _ _ => ("Jane Doe\nTitle: X\nSale of: N/A".toList)
     textFull := [] }]

/-! ## Claims -/

/-- Claim C3: the Field Parser, applied to the four-line text
`"Jane Doe" / "Title: Untitled" / "Description: Oil on canvas" /
"more desc text"`, returns exactly the record
`{Artist: "Jane Doe", Title: "Untitled",
Description: "Oil on canvas more desc text"}` (stated as the full
association list, in the dict's insertion order, which pins down the dict
exactly). -/
theorem field_parse_roundtrip :
    parseArtworkFields
        (("Jane Doe\nTitle: Untitled\nDescription: Oil on canvas\nmore desc text").toList) =
      [(("Artist".toList), ("Jane Doe".toList)),
       (("Title".toList), ("Untitled".toList)),
       (("Description".toList), ("Oil on canvas more desc text".toList))] := by
  decide

/-- Claim C7: the Sale-Field Decomposer, applied to
`"Christie's: Wednesday, May 15, 2024 [Lot 42] (Online)"`, returns exactly
`{auction_house: "Christie's", sale_date: 2024-05-15, lot_number: "42",
is_online: true}`. -/
theorem sale_decompose_example :
    parse_sale_of_column
        (("Christie's: Wednesday, May 15, 2024 [Lot 42] (Online)").toList) =
      { auction_house := some ("Christie's".toList)
        sale_date := some ⟨2024, 5, 15⟩
        lot_number := some ("42".toList)
        is_online := true } := by
  decide

/-- Claim C2: for every input to the Sale-Field Decomposer, failure of the
structural pattern, or failure of the fixed-format date parse, yields
exactly the all-null/false fallback, and the result is never partially
populated: it is the fallback or has all three optional fields set.  (The
source's bare `except` also maps any other exception to the same fallback;
in this total model the two explicit failure points are the only ones.) -/
theorem sale_decomposer_atomic (entry : PyStr) :
    (matchSale entry = none → parse_sale_of_column entry = saleFallback) ∧
    (∀ g, matchSale entry = some g →
      strptimeAMBdY (pyStrip g.dateStr) = none →
      parse_sale_of_column entry = saleFallback) ∧
    (parse_sale_of_column entry = saleFallback ∨
      ∃ h d l, (parse_sale_of_column entry).auction_house = some h ∧
        (parse_sale_of_column entry).sale_date = some d ∧
        (parse_sale_of_column entry).lot_number = some l) := by
  refine ⟨?_, ?_, ?_⟩
  · intro h
    simp [parse_sale_of_column, h]
  · intro g hg hd
    simp [parse_sale_of_column, hg, hd]
  · cases hm : matchSale entry with
    | none => exact Or.inl (by simp [parse_sale_of_column, hm])
    | some g =>
      cases hd : strptimeAMBdY (pyStrip g.dateStr) with
      | none => exact Or.inl (by simp [parse_sale_of_column, hm, hd])
      | some d =>
        refine Or.inr
          ⟨pyStrip g.house, d, pyStrip (lotSub g.lot), ?_, ?_, ?_⟩ <;>
          simp [parse_sale_of_column, hm, hd]

/-- Witness for C2 at the spec's own non-conforming input `"N/A"`. -/
theorem sale_decomposer_atomic_witness :
    parse_sale_of_column (("N/A").toList) = saleFallback :=
  (sale_decomposer_atomic (("N/A").toList)).1 (by decide)

/-- Helper: `List.find?` returns the element at the first index satisfying
the predicate. -/
theorem find?_first {α : Type} (p : α → Bool) (d : α) (l : List α) (i : Nat)
    (hi : i < l.length) (hp : p (l.getD i d) = true)
    (hmin : ∀ j, j < i → p (l.getD j d) = false) :
    l.find? p = some (l.getD i d) := by
  induction l generalizing i with
  | nil => simp at hi
  | cons a tl ih =>
    cases i with
    | zero =>
      simp only [List.getD_cons_zero] at hp ⊢
      exact List.find?_cons_of_pos _ hp
    | succ n =>
      have ha : p a = false := by simpa using hmin 0 (Nat.succ_pos n)
      rw [List.find?_cons_of_neg _ (by simp [ha])]
      simp only [List.getD_cons_succ] at hp ⊢
      exact ih n (by simpa using hi) hp
        (fun j hj => by simpa using hmin (j + 1) (by omega))

/-- Claim C4: the Field Parser's label scan tests a line's prefix against
the nine labels strictly in `ARTNET_CATEGORIES` order and the first
matching label wins; consequently a line that begins with `"Sold For"` is
classified as `"Sold For"` and never under any other label. -/
theorem label_priority (line : PyStr) :
    (∀ i, i < ARTNET_CATEGORIES.length →
      (ARTNET_CATEGORIES.getD i []).isPrefixOf line = true →
      (∀ j, j < i → (ARTNET_CATEGORIES.getD j []).isPrefixOf line = false) →
      classifyLine line = some (ARTNET_CATEGORIES.getD i [])) ∧
    (("Sold For".toList).isPrefixOf line = true →
      classifyLine line = some ("Sold For".toList)) := by
  constructor
  · intro i hi hp hmin
    exact find?_first _ [] _ i hi hp hmin
  · intro h
    obtain ⟨rest, rfl⟩ := List.isPrefixOf_iff_prefix.mp h
    have hS : ("Sold For".toList) = ['S','o','l','d',' ','F','o','r'] := rfl
    rw [hS]
    have hgoal :
        classifyLine (['S','o','l','d',' ','F','o','r'] ++ rest) =
          some (ARTNET_CATEGORIES.getD 7 []) := by
      refine find?_first _ [] _ 7 (by decide) ?_ ?_
      · rw [show ARTNET_CATEGORIES.getD 7 [] =
            (['S','o','l','d',' ','F','o','r'] : List Char) from by decide]
        simp [List.isPrefixOf]
      · intro j hj
        interval_cases j
        · rw [show ARTNET_CATEGORIES.getD 0 [] =
              (['T','i','t','l','e'] : List Char) from by decide]
          simp [List.isPrefixOf]
        · rw [show ARTNET_CATEGORIES.getD 1 [] =
              (['D','e','s','c','r','i','p','t','i','o','n'] : List Char)
              from by decide]
          simp [List.isPrefixOf]
        · rw [show ARTNET_CATEGORIES.getD 2 [] =
              (['M','e','d','i','u','m'] : List Char) from by decide]
          simp [List.isPrefixOf]
        · rw [show ARTNET_CATEGORIES.getD 3 [] =
              (['Y','e','a','r',' ','o','f',' ','W','o','r','k'] : List Char)
              from by decide]
          simp [List.isPrefixOf]
        · rw [show ARTNET_CATEGORIES.getD 4 [] =
              (['S','i','z','e'] : List Char) from by decide]
          simp [List.isPrefixOf]
        · rw [show ARTNET_CATEGORIES.getD 5 [] =
              (['S','a','l','e',' ','o','f'] : List Char) from by decide]
          simp [List.isPrefixOf]
        · rw [show ARTNET_CATEGORIES.getD 6 [] =
              (['E','s','t','i','m','a','t','e'] : List Char) from by decide]
          simp [List.isPrefixOf]
    rw [hgoal]
    rw [show ARTNET_CATEGORIES.getD 7 [] =
        (['S','o','l','d',' ','F','o','r'] : List Char) from by decide]

/-- Witness for C4: a concrete `"Sold For"` line is classified as
`"Sold For"`. -/
theorem label_priority_witness :
    classifyLine (("Sold For: 1,000 USD").toList) = some ("Sold For".toList) :=
  (label_priority (("Sold For: 1,000 USD").toList)).2 (by decide)

/-- Helper: when `sepOfDrawing` yields a marker. -/
theorem sepOfDrawing_eq_some (pn : Nat) (d : Drawing) (sep : Separator) :
    sepOfDrawing pn d = some sep ↔
      ∃ it rest, d.items = it :: rest ∧ it.tag = ("re".toList) ∧
        |it.rect.y1 - it.rect.y0| < 1 ∧ it.rect.width > 100 ∧
        sep = ⟨pn, it.rect.y0⟩ := by
  unfold sepOfDrawing
  cases hitems : d.items with
  | nil => simp
  | cons it rest =>
    constructor
    · intro h
      dsimp only at h
      by_cases htag : it.tag = ("re".toList)
      · rw [if_pos htag] at h
        by_cases hgeo : |it.rect.y1 - it.rect.y0| < 1 ∧ it.rect.width > 100
        · rw [if_pos hgeo] at h
          exact ⟨it, rest, rfl, htag, hgeo.1, hgeo.2,
            (Option.some.inj h).symm⟩
        · rw [if_neg hgeo] at h
          exact absurd h (by simp)
      · rw [if_neg htag] at h
        exact absurd h (by simp)
    · rintro ⟨it', rest', heq, htag, h1, h2, rfl⟩
      obtain ⟨rfl, rfl⟩ : it = it' ∧ rest = rest' := by
        simpa using heq
      dsimp only
      rw [if_pos htag, if_pos ⟨h1, h2⟩]

/-- Claim C5: the Separator Locator's output contains a marker exactly for
the drawing primitives whose first item is a rectangle (`'re'`) of
effectively zero height (`|y1 - y0| < 1`) and width over `100`, whose
recorded `y` (the rectangle's `y0`) exceeds `50`; the marker records the
page number and that `y0`.  Every rectangle with `y0 ≤ 50`, or width
`≤ 100`, or height `≥ 1` is excluded. -/
theorem separator_locator_charact (doc : Doc) (sep : Separator) :
    sep ∈ find_artnet_separators doc ↔
      ∃ pn, pn < doc.length ∧ ∃ d ∈ (pageAt doc pn).drawings,
        ∃ it rest, d.items = it :: rest ∧ it.tag = ("re".toList) ∧
          |it.rect.y1 - it.rect.y0| < 1 ∧ it.rect.width > 100 ∧
          (50 : ℚ) < it.rect.y0 ∧ sep = ⟨pn, it.rect.y0⟩ := by
  unfold find_artnet_separators
  simp only [List.mem_filter, List.mem_flatMap, List.mem_filterMap,
    List.mem_range, decide_eq_true_eq]
  constructor
  · rintro ⟨⟨pn, hpn, d, hd, hsep⟩, hy⟩
    obtain ⟨it, rest, hitems, htag, h1, h2, rfl⟩ :=
      (sepOfDrawing_eq_some pn d sep).mp hsep
    exact ⟨pn, hpn, d, hd, it, rest, hitems, htag, h1, h2, hy, rfl⟩
  · rintro ⟨pn, hpn, d, hd, it, rest, hitems, htag, h1, h2, hy, rfl⟩
    exact ⟨⟨pn, hpn, d, hd,
      (sepOfDrawing_eq_some pn d _).mpr ⟨it, rest, hitems, htag, h1, h2, rfl⟩⟩,
      hy⟩

/-- Helper: the source's `text += "\n" + piece` folding is the
newline-join of the initial text and the pieces. -/
theorem foldl_newline_join (f : Nat → PyStr) (ns : List Nat) (t0 : PyStr) :
    ns.foldl (fun acc pn => acc ++ '\n' :: f pn) t0 = joinNL (t0 :: ns.map f) := by
  induction ns generalizing t0 with
  | nil => rfl
  | cons n ns ih =>
    simp only [List.foldl_cons, List.map_cons]
    rw [ih]
    cases hm : ns.map f with
    | nil => simp [joinNL]
    | cons a l => simp [joinNL, List.append_assoc]

/-- Helper: appending one more newline-separated piece. -/
theorem joinNL_append_last (l : List PyStr) (x : PyStr) (hne : l ≠ []) :
    joinNL l ++ '\n' :: x = joinNL (l ++ [x]) := by
  induction l with
  | nil => simp at hne
  | cons a tl ih =>
    cases tl with
    | nil => simp [joinNL]
    | cons b tl2 =>
      have hih := ih (by simp)
      simp only [joinNL, List.cons_append, List.append_assoc] at hih ⊢
      rw [hih]
      rfl

/-- Claim C6: for every separator pair with `start.page < end.page`, the
Region Text Extractor returns the newline-separated concatenation, in
order, of the trimmed clipped bottom of the start page, the trimmed
full-page text of every strictly-intermediate page in increasing order,
and the trimmed clipped top (`y=0` to `end.y`) of the end page —
`specRegionText`, stated from the spec's words. -/
theorem region_text_cross_page (doc : Doc) (s e : Separator)
    (h : s.page < e.page) :
    extractRegionText doc s e = specRegionText doc s e := by
  have hne : s.page ≠ e.page := Nat.ne_of_lt h
  unfold extractRegionText specRegionText
  rw [if_neg hne]
  dsimp only
  rw [if_pos hne]
  rw [foldl_newline_join (fun pn => pyStrip ((pageAt doc pn).textFull))]
  rw [joinNL_append_last _ _ (by simp)]
  simp

/-- Witness for C6 at the spec's concrete cross-page span. -/
theorem region_text_cross_page_witness :
    extractRegionText crossDoc ⟨0, 300⟩ ⟨2, 100⟩ =
      specRegionText crossDoc ⟨0, 300⟩ ⟨2, 100⟩ :=
  region_text_cross_page crossDoc ⟨0, 300⟩ ⟨2, 100⟩ (by decide)

/-- Helper: an empty extracted span anywhere in the separator list makes
the per-document loop abort. -/
theorem processPairs_error_of_empty (doc : Doc) (seps : List Separator) :
    ∀ p ∈ adjPairs seps, extractRegionText doc p.1 p.2 = [] →
      processPairs doc seps = .error () := by
  induction seps with
  | nil => intro p hp; simp [adjPairs] at hp
  | cons s rest ih =>
    cases rest with
    | nil => intro p hp; simp [adjPairs] at hp
    | cons e rest2 =>
      intro p hp hempty
      simp only [adjPairs, List.mem_cons] at hp
      rcases hp with rfl | hp
      · have hnone : get_artwork_info doc s e = none := by
          unfold get_artwork_info
          simp [hempty]
        unfold processPairs
        rw [hnone]
      · have herr := ih p hp hempty
        unfold processPairs
        cases get_artwork_info doc s e with
        | none => rfl
        | some a => rw [herr]; rfl

/-- Helper: when every adjacent span extracts nonempty text, the
per-document loop succeeds with one record per adjacent pair. -/
theorem processPairs_count (doc : Doc) (seps : List Separator)
    (h : ∀ p ∈ adjPairs seps, extractRegionText doc p.1 p.2 ≠ []) :
    ∃ rs, processPairs doc seps = Except.ok rs ∧
      rs.length = seps.length - 1 := by
  induction seps with
  | nil => exact ⟨[], rfl, rfl⟩
  | cons s rest ih =>
    cases rest with
    | nil => exact ⟨[], rfl, rfl⟩
    | cons e rest2 =>
      have hhead : extractRegionText doc s e ≠ [] :=
        h (s, e) (by simp [adjPairs])
      obtain ⟨rs, hok, hlen⟩ :=
        ih (fun p hp => h p (by simp [adjPairs]; right; simpa [adjPairs] using hp))
      have hsome : get_artwork_info doc s e =
          some (parseArtworkFields (extractRegionText doc s e)) := by
        unfold get_artwork_info
        simp [hhead]
      refine ⟨parseArtworkFields (extractRegionText doc s e) :: rs, ?_, ?_⟩
      · unfold processPairs
        rw [hsome, hok]
        rfl
      · simp only [List.length_cons] at hlen ⊢
        omega

/-- Claim C9: for every document and separator pair whose extracted,
trimmed region text is empty, `get_artwork_info` does not return a record
(the source's `return artwork` raises on the never-assigned local), and
such an empty span anywhere among the document's adjacent separator pairs
aborts the processing of that document instead of yielding an empty
record. -/
theorem empty_span_aborts (doc : Doc) :
    (∀ s e, extractRegionText doc s e = [] → get_artwork_info doc s e = none) ∧
    (∀ p ∈ adjPairs (find_artnet_separators doc),
      extractRegionText doc p.1 p.2 = [] →
        processDoc doc = Except.error ()) := by
  constructor
  · intro s e h
    unfold get_artwork_info
    simp [h]
  · intro p hp h
    exact processPairs_error_of_empty doc _ p hp h

/-- Helper: the separators of a one-page document carrying the two
standard separator drawings. -/
theorem find_seps_std (p : Page) (hp : p.drawings = stdDrawings) :
    find_artnet_separators [p] = [⟨0, 100⟩, ⟨0, 300⟩] := by
  have h1 : sepOfDrawing 0 ⟨[⟨("re".toList), ⟨0, 100, 200, 100⟩⟩]⟩ =
      some ⟨0, 100⟩ :=
    (sepOfDrawing_eq_some _ _ _).mpr
      ⟨⟨("re".toList), ⟨0, 100, 200, 100⟩⟩, [], rfl, rfl, by norm_num,
        by norm_num [Rect.width], rfl⟩
  have h2 : sepOfDrawing 0 ⟨[⟨("re".toList), ⟨0, 300, 200, 300⟩⟩]⟩ =
      some ⟨0, 300⟩ :=
    (sepOfDrawing_eq_some _ _ _).mpr
      ⟨⟨("re".toList), ⟨0, 300, 200, 300⟩⟩, [], rfl, rfl, by norm_num,
        by norm_num [Rect.width], rfl⟩
  have hpage : pageAt [p] 0 = p := rfl
  unfold find_artnet_separators
  rw [show List.range ([p] : Doc).length = [0] from rfl]
  rw [List.flatMap_cons, List.flatMap_nil, List.append_nil, hpage, hp]
  unfold stdDrawings
  rw [List.filterMap_cons, List.filterMap_cons, List.filterMap_nil, h1, h2]
  dsimp only
  have hy1 : ((50 : ℚ) < 100) := by norm_num
  have hy2 : ((50 : ℚ) < 300) := by norm_num
  simp [List.filter_cons, hy1, hy2]

/-- Witness for C9 on `emptySpanDoc`. -/
theorem empty_span_aborts_witness :
    get_artwork_info emptySpanDoc ⟨0, 100⟩ ⟨0, 300⟩ = none ∧
      processDoc emptySpanDoc = Except.error () :=
  ⟨(empty_span_aborts emptySpanDoc).1 ⟨0, 100⟩ ⟨0, 300⟩ rfl,
   (empty_span_aborts emptySpanDoc).2 (⟨0, 100⟩, ⟨0, 300⟩)
     (by
       have hsep : find_artnet_separators emptySpanDoc =
           [⟨0, 100⟩, ⟨0, 300⟩] := find_seps_std _ rfl
       rw [hsep]
       simp [adjPairs]) rfl⟩

/-- Claim C1 (amended): provided every adjacent separator pair of the
document extracts nonempty text, the per-document loop succeeds and
produces exactly N−1 records for N separators; with zero separators the
hypothesis is vacuous and zero records are produced.  (Unamended the claim
fails: an empty span aborts the document with an error instead, see the
counterexample.) -/
theorem pipeline_entry_count (doc : Doc)
    (h : ∀ p ∈ adjPairs (find_artnet_separators doc),
      extractRegionText doc p.1 p.2 ≠ []) :
    ∃ rs, processDoc doc = Except.ok rs ∧
      rs.length = (find_artnet_separators doc).length - 1 :=
  processPairs_count doc _ h

/-- Counterexample to C1 as stated: `emptySpanDoc` has two separators
after border filtering, yet the pipeline does not produce `2 − 1 = 1`
records for it — the run aborts with an error. -/
theorem pipeline_entry_count_counterexample :
    (find_artnet_separators emptySpanDoc).length = 2 ∧
      processDoc emptySpanDoc = Except.error () := by
  have hsep : find_artnet_separators emptySpanDoc = [⟨0, 100⟩, ⟨0, 300⟩] :=
    find_seps_std _ rfl
  constructor
  · rw [hsep]
    rfl
  · unfold processDoc
    rw [hsep]
    rfl

/-- Witness for the amended C1 on `twoSepDoc`. -/
theorem pipeline_entry_count_witness :
    ∃ rs, processDoc twoSepDoc = Except.ok rs ∧
      rs.length = (find_artnet_separators twoSepDoc).length - 1 :=
  pipeline_entry_count twoSepDoc (by
    have hsep : find_artnet_separators twoSepDoc = [⟨0, 100⟩, ⟨0, 300⟩] :=
      find_seps_std _ rfl
    rw [hsep]
    decide)

/-- Helper: membership in an extended column list. -/
theorem mem_addCols (cols keys : List PyStr) (k : PyStr) :
    k ∈ addCols cols keys ↔ k ∈ cols ∨ k ∈ keys := by
  induction keys generalizing cols with
  | nil => simp [addCols]
  | cons a keys ih =>
    show k ∈ addCols (if a ∈ cols then cols else cols ++ [a]) keys ↔ _
    rw [ih]
    by_cases ha : a ∈ cols
    · rw [if_pos ha]
      simp only [List.mem_cons]
      constructor
      · tauto
      · rintro (h | rfl | h) <;> tauto
    · rw [if_neg ha]
      simp [List.mem_append, or_assoc]

/-- Helper: a key is a column of `pd.DataFrame(results)` iff some record
carries it. -/
theorem mem_dfColumns (rs : List Artwork) (k : PyStr) :
    k ∈ dfColumns rs ↔ ∃ a ∈ rs, k ∈ a.map Prod.fst := by
  have main : ∀ cols : List PyStr,
      (k ∈ rs.foldl (fun cols a => addCols cols (a.map Prod.fst)) cols ↔
        k ∈ cols ∨ ∃ a ∈ rs, k ∈ a.map Prod.fst) := by
    induction rs with
    | nil => intro cols; simp
    | cons r rs ih =>
      intro cols
      simp only [List.foldl_cons]
      rw [ih, mem_addCols]
      simp [or_assoc]
  simpa [dfColumns] using main []

/-- Claim C10: if, after all documents are processed, no accumulated
record carries the `Sale of` key (in particular when there are no records
at all), then `df['Sale of']` raises a missing-column `KeyError` and no
output table is written. -/
theorem missing_sale_column_aborts (docs : List Doc) (rs : List Artwork)
    (hok : pipelineRecords docs = Except.ok rs)
    (hnone : ∀ a ∈ rs, ("Sale of".toList) ∉ a.map Prod.fst) :
    mainTable docs = Except.error () := by
  have hmem : ("Sale of".toList) ∉ dfColumns rs := by
    rw [mem_dfColumns]
    rintro ⟨a, ha, hk⟩
    exact hnone a ha hk
  unfold mainTable
  rw [hok]
  dsimp only
  rw [if_neg hmem]

/-- Witness for C10: a run with no input documents accumulates no records
and aborts at the decomposition step. -/
theorem missing_sale_column_aborts_witness :
    mainTable ([] : List Doc) = Except.error () :=
  missing_sale_column_aborts [] [] rfl (by simp)

/-- Claim C8 (amended): the emitted table has one row per record; its
columns are the records' keys in first-appearance order (the inferred
Artist column, when present, appears where it was first inserted — before
Title — and only keys that occur in some record become columns), followed
by the four derived columns in order auction_house, sale_date, lot_number,
is_online; no row-index column is emitted.  (Unamended the claim fails:
the columns are not the nine field labels in vocabulary order followed by
Artist, see the counterexample.) -/
theorem emitted_table_shape (docs : List Doc) (rs : List Artwork)
    (hok : pipelineRecords docs = Except.ok rs)
    (hmem : ("Sale of".toList) ∈ dfColumns rs) :
    mainTable docs = Except.ok
      { columns := dfColumns rs ++ derivedCols
        rows := rs.map (fun a => (a, parse_sale_of_column (saleCell a)))
        withIndexCol := false } := by
  unfold mainTable
  rw [hok]
  dsimp only
  rw [if_pos hmem]

/-- The single record extracted from `saleDoc`. -/
def saleDocRecord : Artwork :=
  [(("Artist".toList), ("Jane Doe".toList)),
   (("Title".toList), ("X".toList)),
   (("Sale of".toList), ("N/A".toList))]

/-- Counterexample to C8 as stated: for the run on `saleDoc` the emitted
columns are Artist, Title, Sale of followed by the derived columns — not
the nine field labels in vocabulary order followed by Artist. -/
theorem emitted_table_columns_counterexample :
    (mainTable [saleDoc]).map EmittedTable.columns =
        Except.ok
          [("Artist".toList), ("Title".toList), ("Sale of".toList),
           ("auction_house".toList), ("sale_date".toList),
           ("lot_number".toList), ("is_online".toList)] ∧
      ([("Artist".toList), ("Title".toList), ("Sale of".toList),
        ("auction_house".toList), ("sale_date".toList),
        ("lot_number".toList), ("is_online".toList)] : List PyStr) ≠
        ARTNET_CATEGORIES ++ ("Artist".toList) :: derivedCols := by
  have hsep : find_artnet_separators saleDoc = [⟨0, 100⟩, ⟨0, 300⟩] :=
    find_seps_std _ rfl
  have hpp : processPairs saleDoc [⟨0, 100⟩, ⟨0, 300⟩] =
      Except.ok [saleDocRecord] := rfl
  have hrec : pipelineRecords [saleDoc] = Except.ok [saleDocRecord] := by
    unfold pipelineRecords processDoc
    rw [hsep, hpp]
    rfl
  constructor
  · unfold mainTable
    rw [hrec]
    dsimp only
    rw [if_pos (by decide)]
    rfl
  · decide

/-- Witness for the amended C8 on `saleDoc`. -/
theorem emitted_table_shape_witness :
    mainTable [saleDoc] = Except.ok
      { columns := dfColumns [saleDocRecord] ++ derivedCols
        rows := [saleDocRecord].map
          (fun a => (a, parse_sale_of_column (saleCell a)))
        withIndexCol := false } :=
  emitted_table_shape [saleDoc] [saleDocRecord]
    (by
      have hsep : find_artnet_separators saleDoc = [⟨0, 100⟩, ⟨0, 300⟩] :=
        find_seps_std _ rfl
      have hpp : processPairs saleDoc [⟨0, 100⟩, ⟨0, 300⟩] =
          Except.ok [saleDocRecord] := rfl
      unfold pipelineRecords processDoc
      rw [hsep, hpp]
      rfl)
    (by decide)

end ArtnetToCsv
